import Mathlib

/-!
Verification development for the MARS flight-system firmware core:
the PTAM/SharedMemory register store, the flight-state machine, and the
HTTP command-ingestion handlers of
`src/base-firmware/components/Comms/_broadcast.cpp`, together with the
deprecated array-based PTAM store of
`src/deprecated/ref/src/PTAM/deprecated/temp_access_mem.cpp` and the
logger of `src/test/Logging/logger.cpp`.

Numeric wire values (C++ `double` / `float`) are embedded as exact
rationals (`Rat`): every wire value is a decimal literal, and the
handlers only compare against zero and truncate to `int`, so the exact
rational semantics coincides with the firmware's floating-point
semantics on the wire formats considered here.  C++ `std::string`
values are embedded as `String` / `List Char`.
-/

set_option maxRecDepth 2000

namespace MarsFirmware

/-! ### Association-list primitives used by the register-store model -/

/-- Lookup of the value stored under key `k` in a keyed mapping. -/
def lookupKey {α : Type} (m : List (String × α)) (k : String) : Option α :=
  (m.find? (fun p => p.1 == k)).map (fun p => p.2)

/-- Insert-or-overwrite of key `k` with value `v` in a keyed mapping. -/
def insertKey {α : Type} (m : List (String × α)) (k : String) (v : α) :
    List (String × α) :=
  (k, v) :: m.filter (fun p => p.1 != k)

/-- Removal of key `k` from a keyed mapping (no-op if absent). -/
def removeKey {α : Type} (m : List (String × α)) (k : String) :
    List (String × α) :=
  m.filter (fun p => p.1 != k)

/-! ### The SharedMemory (PTAM) register store -/

/-- Modelled from the spec: the `SharedMemory` class of `_ptam.h` is not
under `src/` (only its callers are).  Per spec §3/§4.1 the Register
Store is a process-wide keyed store of typed values in which "each kind
is stored in its own keyed mapping (keys need not be unique across
kinds, but must be unique within a kind)".  The two integer kinds
(unsigned 8-bit and unsigned 32-bit) are collapsed into one integer
mapping, since the sources under `src/` only ever access an integer
register through `getLastInt`. -/
structure SharedMemory where
  doubles : List (String × Rat)
  ints : List (String × Int)
  strs : List (String × String)
deriving DecidableEq, Repr

/-- Modelled from the spec: the store before any write ("entries are
created on first write"). -/
def SharedMemory.empty : SharedMemory := ⟨[], [], []⟩

/-- Modelled from the spec: `storeDouble` — "set(key, value) ... inserts
or overwrites" in the 64-bit floating-point mapping. -/
def SharedMemory.storeDouble (mem : SharedMemory) (k : String) (v : Rat) :
    SharedMemory :=
  { mem with doubles := insertKey mem.doubles k v }

/-- Modelled from the spec: `storeInt` — insert-or-overwrite in the
integer mapping. -/
def SharedMemory.storeInt (mem : SharedMemory) (k : String) (v : Int) :
    SharedMemory :=
  { mem with ints := insertKey mem.ints k v }

/-- Modelled from the spec: `storeString` — insert-or-overwrite in the
text mapping. -/
def SharedMemory.storeString (mem : SharedMemory) (k : String) (v : String) :
    SharedMemory :=
  { mem with strs := insertKey mem.strs k v }

/-- Modelled from the spec: `clearData(key)` — "removes the key from its
kind-specific mapping if present; no-op if absent".  The C++ call takes
only the key (no kind), so the key is removed from every kind's
mapping. -/
def SharedMemory.clearData (mem : SharedMemory) (k : String) : SharedMemory :=
  ⟨removeKey mem.doubles k, removeKey mem.ints k, removeKey mem.strs k⟩

/-- Modelled from the spec: `getLastDouble` — "returns the most recently
set value for that key in that kind; returns a documented sentinel
(zero / empty string) if absent". -/
def SharedMemory.getLastDouble (mem : SharedMemory) (k : String) : Rat :=
  (lookupKey mem.doubles k).getD 0

/-- Modelled from the spec: `getLastInt` — most recent integer value for
the key, sentinel `0` if absent. -/
def SharedMemory.getLastInt (mem : SharedMemory) (k : String) : Int :=
  (lookupKey mem.ints k).getD 0

/-- Modelled from the spec: `getLastString` — most recent text value for
the key, sentinel `""` if absent. -/
def SharedMemory.getLastString (mem : SharedMemory) (k : String) : String :=
  (lookupKey mem.strs k).getD ""

/-! ### Flight states and the state machine -/

/-- Flight states dispatched by `handle_STATE_incoming`
(`_broadcast.cpp:624-637`). -/
inductive FlightState where
  | PREP
  | ARMED
  | BYPASS
deriving DecidableEq, Repr

/-- Numeric state code of a flight state, matching the `case 1/2/3`
dispatch of `handle_STATE_incoming` and the `state = 2` write of the
AUTH handler. -/
def stateCode : FlightState → Int
  | .PREP => 1
  | .ARMED => 2
  | .BYPASS => 3

/-- Human-readable label of a flight state (spec §3: `stateDescript`). -/
def stateLabel : FlightState → String
  | .PREP => "PREP"
  | .ARMED => "ARMED"
  | .BYPASS => "BYPASS"

/-- Modelled from the spec: `STATE::updateState` is not under `src/`.
Per spec §4.2 "each transition writes both the numeric code and the
descriptive label ... into the Register Store" under the reserved keys
`state` (integer state code) and `stateDescript`, following the
established clear-then-set pattern. -/
def updateState (s : FlightState) (mem : SharedMemory) : SharedMemory :=
  let m1 := (mem.clearData "state").storeInt "state" (stateCode s)
  (m1.clearData "stateDescript").storeString "stateDescript" (stateLabel s)

/-! ### HTTP handler results -/

/-- Return value of an ESP HTTP handler: `ESP_OK` or `ESP_FAIL`. -/
inductive EspResult where
  | ok
  | fail
deriving DecidableEq, Repr

/-- Byte cap on incoming command payloads
(`#define MAX_DATA_LEN 100`, `_broadcast.cpp:41`). -/
def MAX_DATA_LEN : Nat := 100

/-! ### The AUTH comparison endpoint

`handle_AUTH_incoming` (`_broadcast.cpp:660-716`): the transport layer
is embedded by passing the declared content length and the received
body directly; a successful POST with `content_len < MAX_DATA_LEN` is
assumed (transport failures abort with `ESP_FAIL` before any store
access and are outside the store-effect claims). -/

/-- Embedding of `handle_AUTH_incoming` (`_broadcast.cpp:660-716`).
Returns the ESP result, the response sent to the client (if any), and
the resulting store.  An oversize declared length is rejected with
`ESP_FAIL` before the body is received; otherwise the received token is
compared byte-for-byte with the stored `arm_token` register, a match
writes `state = 2` (double kind) and `stateDescript = "ARMED"` via
clear-then-set and answers `"STATE-CHANGE-SUCCESS"`, a mismatch leaves
the store untouched and answers `"STATE-CHANGE-FAIL"`. -/
def handle_AUTH_incoming (contentLen : Nat) (body : String)
    (mem : SharedMemory) : EspResult × Option String × SharedMemory :=
  if MAX_DATA_LEN ≤ contentLen then (.fail, none, mem)
  else
    let token_saved := mem.getLastString "arm_token"
    if body ≠ token_saved then
      (.ok, some "STATE-CHANGE-FAIL", mem)
    else
      let m1 := (mem.clearData "state").storeDouble "state" 2
      let m2 := (m1.clearData "stateDescript").storeString "stateDescript" "ARMED"
      (.ok, some "STATE-CHANGE-SUCCESS", m2)

/-- Reading of the machine state by the logger
(`src/test/Logging/logger.cpp:47`): `int state_data =
obj.getLastInt("state")`. -/
def loggerStateRead (mem : SharedMemory) : Int :=
  mem.getLastInt "state"

/-! ### Wire codec: `extractValuesAndIds` and `packData`

`extractValuesAndIds` (`_broadcast.cpp:219-232`) splits the payload on
`_` with `std::getline`, then per item takes the identifier as the text
before the first character of `"0123456789.-"` and the value as
`std::stod` of the rest.  `item.substr(npos)` (no numeric character)
throws `std::out_of_range` and `std::stod` with no conversion throws
`std::invalid_argument`; those exceptional paths are embedded as
`none`. -/

/-- Character class `"0123456789.-"` used by `find_first_of` in
`extractValuesAndIds`. -/
def isNumChar (c : Char) : Bool := c.isDigit || c == '.' || c == '-'

/-- Accumulator pass of the `std::getline(ss, item, _)` loop: emits one
token per delimiter plus the final token. -/
def splitTokens : List Char → List Char → List (List Char)
  | [], acc => [acc.reverse]
  | c :: cs, acc =>
    if c = '_' then acc.reverse :: splitTokens cs [] else splitTokens cs (c :: acc)

/-- Tests whether the payload's final character is the delimiter (in
that case `std::getline` produces no trailing empty token, because the
stream reaches end-of-file after consuming it). -/
def endsWithUnderscore : List Char → Bool
  | [] => false
  | [c] => c == '_'
  | _ :: cs => endsWithUnderscore cs

/-- Embedding of the `std::getline(ss, item, '_')` tokenisation loop:
no token at all for the empty payload, and no trailing empty token when
the payload ends with the delimiter. -/
def cppGetlineSplit (cs : List Char) : List (List Char) :=
  if cs.isEmpty then []
  else if endsWithUnderscore cs then (splitTokens cs []).dropLast
  else splitTokens cs []

/-- Embedding of `item.find_first_of("0123456789.-")`: index of the
first numeric character, `none` for `npos`. -/
def findFirstNumIdx : List Char → Option Nat
  | [] => none
  | c :: cs =>
    if isNumChar c then some 0 else (findFirstNumIdx cs).map (fun n => n + 1)

/-- Longest decimal-digit prefix and the remaining characters. -/
def takeDigits (cs : List Char) : List Char × List Char :=
  (cs.takeWhile Char.isDigit, cs.dropWhile Char.isDigit)

/-- Numeric value of a decimal digit character. -/
def digitVal (c : Char) : Nat := c.toNat - 48

/-- Value of a big-endian decimal digit string. -/
def digitsVal (cs : List Char) : Nat :=
  cs.foldl (fun a c => 10 * a + digitVal c) 0

/-- Optional leading sign of the `std::stod` grammar. -/
def stripSign (cs : List Char) : Bool × List Char :=
  match cs with
  | [] => (false, [])
  | c :: t =>
    if c = '-' then (true, t) else if c = '+' then (false, t) else (false, c :: t)

/-- Fractional part after the mantissa digits: a leading `'.'` is
consumed together with the following digit run. -/
def splitFrac (cs : List Char) : List Char × List Char :=
  match cs with
  | [] => ([], [])
  | c :: t => if c = '.' then takeDigits t else ([], c :: t)

/-- Optional exponent sign. -/
def stripExpSign (cs : List Char) : Int × List Char :=
  match cs with
  | [] => (1, [])
  | c :: t =>
    if c = '-' then (-1, t) else if c = '+' then (1, t) else (1, c :: t)

/-- Overflow threshold of `std::stod`: an exact decimal value whose
magnitude is at or above `2 ^ 1024 - 2 ^ 970` (the round-to-nearest
boundary above `DBL_MAX = (2 ^ 53 - 1) * 2 ^ 971`) converts to
infinity, so `std::stod` throws `std::out_of_range`.  The threshold is
written as an explicit numeral so that concrete runs of the parser
evaluate in one step; `stodOverflowBound_eq` certifies that the
numeral is `2 ^ 1024 - 2 ^ 970` (in nested-power form, which keeps
each exponent below the evaluator's folding threshold). -/
def stodOverflowBound : Rat :=
  (179769313486231580793728971405303415079934132710037826936173778980444968292764750946649017977587207096330286416692887910946555547851940402630657488671505820681908902000708383676273854845817711531764475730270069855571366959622842914819860834936475292719074168444365510704342711559699508093042880177904174497792 : Nat)

/-- Range check applied to every converted value: `std::out_of_range`
(`none`) on `double` overflow, otherwise the value with the unconsumed
rest of the input. -/
def stodGuard (v : Rat) (rest : List Char) : Option (Rat × List Char) :=
  if stodOverflowBound ≤ |v| then none else some (v, rest)

/-- Embedding of `std::stod` on the decimal grammar
`[+-]? digits [. digits] [eE [+-] digits]` (longest valid prefix, value
and unconsumed rest).  `none` covers the two exceptions of `std::stod`:
`std::invalid_argument` when no conversion is possible, and
`std::out_of_range` when the converted value overflows `double`
(`strtod` returns `HUGE_VAL` with `errno = ERANGE`, e.g. on `"1e999"`).
The hexadecimal/infinity/nan forms of `strtod` cannot arise after
`find_first_of("0123456789.-")`, and the implementation-defined
`ERANGE`-on-underflow path for subnormal results is outside the
model. -/
def stodParse (cs : List Char) : Option (Rat × List Char) :=
  let sp := stripSign cs
  let d1p := takeDigits sp.2
  let fp := splitFrac d1p.2
  if d1p.1.isEmpty && fp.1.isEmpty then none
  else
    let mantissa : Rat :=
      (digitsVal d1p.1 : Rat) + (digitsVal fp.1 : Rat) / (10 : Rat) ^ fp.1.length
    let m : Rat := if sp.1 then -mantissa else mantissa
    match fp.2 with
    | [] => stodGuard m []
    | e :: t =>
      if e = 'e' ∨ e = 'E' then
        let es := stripExpSign t
        let edp := takeDigits es.2
        if edp.1.isEmpty then stodGuard m fp.2
        else stodGuard (m * (10 : Rat) ^ (es.1 * (digitsVal edp.1 : Int))) edp.2
      else stodGuard m fp.2

/-- Per-item decoding of `extractValuesAndIds`: identifier before the
first numeric character, `std::stod` value from there on. -/
def decodeItem (item : List Char) : Option (List Char × Rat) :=
  match findFirstNumIdx item with
  | none => none
  | some i =>
    match stodParse (item.drop i) with
    | none => none
    | some (v, _) => some (item.take i, v)

/-- Embedding of `extractValuesAndIds` (`_broadcast.cpp:219-232`):
ordered identifier list and ordered value list, `none` when an item has
no numeric character or no convertible value (the exception paths). -/
def extractValuesAndIds (data : List Char) : Option (List (List Char) × List Rat) :=
  match (cppGetlineSplit data).mapM decodeItem with
  | none => none
  | some ps => some (ps.map (fun p => p.1), ps.map (fun p => p.2))

/-! ### Rendering of numeric values (`packData`) -/

/-- Decimal digit character for a digit value below ten. -/
def digitChar (d : Nat) : Char :=
  ['0', '1', '2', '3', '4', '5', '6', '7', '8', '9'].getD d '0'

/-- Little-endian base-10 digit list of a natural number, by fuelled
exact division (the fuel `n` itself always suffices). -/
def natDigitsAux : Nat → Nat → List Nat
  | 0, _ => []
  | fuel + 1, n => if n = 0 then [] else n % 10 :: natDigitsAux fuel (n / 10)

/-- Big-endian decimal digit string of a natural number (as printed by
`operator<<`). -/
def natChars (n : Nat) : List Char :=
  if n = 0 then ['0'] else (natDigitsAux n n).reverse.map digitChar

/-- Multiplicity of `p` in `n` (fuelled exact division count). -/
def multAux : Nat → Nat → Nat → Nat
  | 0, _, _ => 0
  | fuel + 1, p, n =>
    if 2 ≤ p ∧ n ≠ 0 ∧ n % p = 0 then multAux fuel p (n / p) + 1 else 0

/-- Smallest `k` with `d ∣ 10 ^ k` when the denominator `d` is of the
form `2 ^ a * 5 ^ b` (every binary floating-point value has such a
denominator); `none` otherwise. -/
def decExponent (d : Nat) : Option Nat :=
  let a := multAux d 2 d
  let b := multAux d 5 d
  if d = 2 ^ a * 5 ^ b then some (max a b) else none

/-- Domain of the exact `%g`-formatting model: the decimal scale `k` of
the value when its minimal decimal form `m / 10 ^ k` satisfies the two
exactness conditions of `renderNum`, `none` otherwise. -/
def renderDomain (q : Rat) : Option Nat :=
  match decExponent q.den with
  | none => none
  | some k =>
    if (natChars (q.num.natAbs * (10 ^ k / q.den))).length ≤ 6 ∧
        k ≤ (natChars (q.num.natAbs * (10 ^ k / q.den))).length + 3 then some k
    else none

/-- Rendering of a wire float value by the default `std::ostream`
formatting (`%g` at precision 6), modelled on the sub-domain where
that formatting is exact and the printed string therefore still
denotes the value.  With `m / 10 ^ k` the minimal decimal form of
`|q|`, the leading digit sits at decimal exponent
`e = (natChars m).length - 1 - k`; `%g` prints fixed notation exactly
when `-4 ≤ e < 6` and prints the six significant digits exactly when
the value has no digits below `10 ^ (e - 5)`.  Both conditions together
are `(natChars m).length ≤ 6 ∧ k ≤ (natChars m).length + 3`, and on
them the printed string is the minimal fixed-notation decimal built
below (sign, integer digits, fractional digits with no trailing
zeros), exactly as `%g` strips trailing zeros.  Outside this sub-domain
the conversion rounds the value or switches to scientific notation
(`123.4567` prints `"123.457"`, `1234567` prints `"1.23457e+06"`,
`0.00001` prints `"1e-05"`), the printed string no longer denotes the
value, and the model abstains (`none`): such values cannot satisfy a
decode-inverts-encode law and are outside it. -/
def renderNum (q : Rat) : Option (List Char) :=
  match renderDomain q with
  | none => none
  | some k =>
    let c := 10 ^ k / q.den
    let m := q.num.natAbs * c
    let digits :=
      if k = 0 then natChars m
      else
        natChars (m / 10 ^ k) ++
          '.' :: (List.replicate (k - (natChars (m % 10 ^ k)).length) '0' ++
            natChars (m % 10 ^ k))
    some (if q.num < 0 then '-' :: digits else digits)

/-- Embedding of `packData` (`_broadcast.cpp:210-217`):
`id1 << value1 << "_" << id2 << value2 << "_" << id3 << value3 << "_"
<< id4 << value4`.  The result is `none` when a value falls outside the
sub-domain on which the `operator<<` float formatting is modelled
exactly (see `renderNum`). -/
def packData (id1 : List Char) (v1 : Rat) (id2 : List Char) (v2 : Rat)
    (id3 : List Char) (v3 : Rat) (id4 : List Char) (v4 : Rat) :
    Option (List Char) :=
  match renderNum v1, renderNum v2, renderNum v3, renderNum v4 with
  | some s1, some s2, some s3, some s4 =>
    some (id1 ++ s1 ++ '_' :: (id2 ++ s2 ++ '_' :: (id3 ++ s3 ++ '_' :: (id4 ++ s4))))
  | _, _, _, _ => none

/-! ### Command-ingestion handlers -/

/-- Truncation of a C++ `double` toward zero, as performed by
`int(values[0])` in `handle_STATE_incoming`. -/
def cppIntTrunc (q : Rat) : Int := q.num.tdiv (q.den : Int)

/-- Embedding of `handle_SWP_incoming` (`_broadcast.cpp:435-509`).
`none` is the undefined-behaviour branch: a decoding exception, or an
access `values[i]` (`i ≤ 4`) past the end of the decoded vector.  A
declared length at or above `MAX_DATA_LEN` is rejected with `ESP_FAIL`
before the body is received and before any store access. -/
def handle_SWP_incoming (contentLen : Nat) (body : String)
    (mem : SharedMemory) : Option (EspResult × SharedMemory) :=
  if MAX_DATA_LEN ≤ contentLen then some (.fail, mem)
  else
    match extractValuesAndIds body.toList with
    | none => none
    | some (_, values) =>
      match values[0]?, values[1]?, values[2]?, values[3]?, values[4]? with
      | some v0, some v1, some v2, some v3, some v4 =>
        let m0 := if v0 ≠ 0 then (mem.clearData "TLat").storeDouble "TLat" v0 else mem
        let m1 := if v1 ≠ 0 then (m0.clearData "TLong").storeDouble "TLong" v1 else m0
        let m2 := if v2 ≠ 0 then (m1.clearData "TAlt").storeDouble "TAlt" v2 else m1
        let m3 := if v3 ≠ 0 then (m2.clearData "CAlt").storeDouble "CAlt" v3 else m2
        let m4 := if v4 ≠ 0 then (m3.clearData "TVel").storeDouble "TVel" v4 else m3
        some (.ok, m4)
      | _, _, _, _, _ => none

/-- Embedding of `handle_SYS_incoming` (`_broadcast.cpp:511-585`), the
same structure as `handle_SWP_incoming` over the actuator registers. -/
def handle_SYS_incoming (contentLen : Nat) (body : String)
    (mem : SharedMemory) : Option (EspResult × SharedMemory) :=
  if MAX_DATA_LEN ≤ contentLen then some (.fail, mem)
  else
    match extractValuesAndIds body.toList with
    | none => none
    | some (_, values) =>
      match values[0]?, values[1]?, values[2]?, values[3]?, values[4]? with
      | some v0, some v1, some v2, some v3, some v4 =>
        let m0 := if v0 ≠ 0 then (mem.clearData "WingFL").storeDouble "WingFL" v0 else mem
        let m1 := if v1 ≠ 0 then (m0.clearData "WingFR").storeDouble "WingFR" v1 else m0
        let m2 := if v2 ≠ 0 then (m1.clearData "WingRL").storeDouble "WingRL" v2 else m1
        let m3 := if v3 ≠ 0 then (m2.clearData "WingRR").storeDouble "WingRR" v3 else m2
        let m4 := if v4 ≠ 0 then (m3.clearData "THR").storeDouble "THR" v4 else m3
        some (.ok, m4)
      | _, _, _, _, _ => none

/-- Embedding of `handle_STATE_incoming` (`_broadcast.cpp:587-658`).
Besides the resulting store it reports which state-machine transition
was invoked (if any).  The handler dereferences `values[0]` through
`values[4]` (the bodies guarded by `values[1]`..`values[4]` are empty
but the accesses still occur), so fewer than five decoded values is the
undefined-behaviour branch `none`.  A non-zero first value is truncated
to `int` and dispatched: `1 ↦ PREP`, `2 ↦ ARMED`, `3 ↦ BYPASS`, any
other truncation falls through the `switch` with no transition. -/
def handle_STATE_incoming (contentLen : Nat) (body : String)
    (mem : SharedMemory) :
    Option (EspResult × SharedMemory × Option FlightState) :=
  if MAX_DATA_LEN ≤ contentLen then some (.fail, mem, none)
  else
    match extractValuesAndIds body.toList with
    | none => none
    | some (_, values) =>
      match values[0]?, values[1]?, values[2]?, values[3]?, values[4]? with
      | some v0, some _, some _, some _, some _ =>
        if v0 ≠ 0 then
          if cppIntTrunc v0 = 1 then some (.ok, updateState .PREP mem, some .PREP)
          else if cppIntTrunc v0 = 2 then some (.ok, updateState .ARMED mem, some .ARMED)
          else if cppIntTrunc v0 = 3 then some (.ok, updateState .BYPASS mem, some .BYPASS)
          else some (.ok, mem, none)
        else some (.ok, mem, none)
      | _, _, _, _, _ => none

/-! ### Arm-token issuance -/

/-- Alphanumeric alphabet for arm tokens. -/
def alphanumerics : List Char :=
  "ABCDEFGHIJKLMNOPQRSTUVWXYZabcdefghijklmnopqrstuvwxyz0123456789".toList

/-- Modelled from the spec: `CONTROLLER_TASKS::generateRandomAlphanumericToken`
is not under `src/`.  Per spec §4.5 it "derives a fixed-length
alphanumeric token from the seeds" (length 6 at the call site); the
derivation mixes the two pseudo-random seeds positionally into the
alphanumeric alphabet. -/
def generateRandomAlphanumericToken (seed1 seed2 len : Nat) : String :=
  String.mk ((List.range len).map (fun i =>
    alphanumerics.getD ((seed1 + (i + 1) * seed2 + i * i) % 62) 'A'))

/-- Embedding of `handle_arm_token_request` (`_broadcast.cpp:380-405`).
`CONTROLLER_TASKS::verifyFlightConfiguration` is not under `src/`, so
the handler is parameterised by its integer result (`verifyResult`).
If the configuration check fails (result `0`) no response is sent and
the store is untouched; otherwise the 6-character token derived from
the two `esp_random()` seeds is stored under `arm_token` via
clear-then-set and returned to the requester. -/
def handle_arm_token_request (verifyResult : Int) (seed1 seed2 : Nat)
    (mem : SharedMemory) : Option String × SharedMemory :=
  if verifyResult ≠ 0 then
    let packed_data := generateRandomAlphanumericToken seed1 seed2 6
    let mem' := (mem.clearData "arm_token").storeString "arm_token" packed_data
    (some packed_data, mem')
  else
    (none, mem)

/-! ### Store-operation interleavings (AUTH state transition)

The success path of `handle_AUTH_incoming` performs four separate store
operations (`_broadcast.cpp:700-704`).  To speak about what a
concurrently scheduled reader task can observe, the sequence is made
explicit and an observation is a prefix of it applied to the initial
store (the code takes no lock, so the reader may run between any two
operations). -/

/-- One atomic store operation. -/
inductive StoreOp where
  | clearOp (k : String)
  | storeDoubleOp (k : String) (v : Rat)
  | storeStringOp (k : String) (v : String)
deriving DecidableEq, Repr

/-- Effect of one store operation. -/
def applyOp (mem : SharedMemory) : StoreOp → SharedMemory
  | .clearOp k => mem.clearData k
  | .storeDoubleOp k v => mem.storeDouble k v
  | .storeStringOp k v => mem.storeString k v

/-- Effect of a sequence of store operations. -/
def applyOps (mem : SharedMemory) (ops : List StoreOp) : SharedMemory :=
  ops.foldl applyOp mem

/-- The four store operations of the AUTH success path
(`_broadcast.cpp:700-704`), in program order. -/
def authWriteSeq : List StoreOp :=
  [.clearOp "state", .storeDoubleOp "state" 2,
   .clearOp "stateDescript", .storeStringOp "stateDescript" "ARMED"]

/-- Observations available to an unsynchronised concurrent reader while
the AUTH success path runs: the store after any prefix of the write
sequence. -/
def observableDuringAuth (mem0 obs : SharedMemory) : Prop :=
  ∃ k ≤ authWriteSeq.length, obs = applyOps mem0 (authWriteSeq.take k)

/-! ### The deprecated array-based PTAM store

`temp_access_mem.cpp` stores `(char* key, char* value)` pairs in flat
arrays and scans with `char*` equality (`floatingP[i] == baseID`),
which compares addresses, not contents.  A C string is embedded as an
address paired with its content. -/

/-- A `char*`: an address together with the pointed-to contents. -/
structure CStr where
  addr : Nat
  content : String
deriving DecidableEq, Repr

/-- Embedding of `itoa` as called by `PTAM_ADD_BASE_DOUBLE`: the
`double` argument is implicitly converted to `int` (truncation toward
zero) and printed in base 10. -/
def itoaInt (n : Int) : String :=
  if n < 0 then String.mk ('-' :: natChars n.natAbs) else String.mk (natChars n.natAbs)

/-- Embedding of `atoi`: optional sign, then the longest digit prefix
(zero when there is none). -/
def atoi (s : String) : Int :=
  match s.toList with
  | '-' :: t => -((digitsVal (takeDigits t).1 : Int))
  | '+' :: t => (digitsVal (takeDigits t).1 : Int)
  | cs => (digitsVal (takeDigits cs).1 : Int)

/-- Pointer comparison `floatingP[i] == baseID` of the retrieval scan: a
null slot never equals a valid key pointer, and two valid pointers are
equal exactly when their addresses are. -/
def ptrEqSlot (slot : Option CStr) (b : CStr) : Bool :=
  match slot with
  | some c => c.addr == b.addr
  | none => false

/-- The `for(i = 0; i < length; i += 2)` scan of
`PTAM_RETRIEVE_BASE_DOUBLE` (`temp_access_mem.cpp:133-145`): pairs are
inspected two slots at a time.  The outer `none` is undefined
behaviour: the loop finished without a pointer match and `temp_data`
stays uninitialised, or a match at the last slot would read one past
the end. -/
def scanPairs (b : CStr) : List (Option CStr) → Option (Option CStr)
  | [] => none
  | [_] => none
  | k :: v :: rest => if ptrEqSlot k b then some v else scanPairs b rest

/-- Embedding of `PTAM_RETRIEVE_BASE_DOUBLE`
(`temp_access_mem.cpp:133-145`) over the current contents of the
`floatingP` array: scan by pointer equality, then `atoi` of the
neighbouring slot (`atoi` of a null pointer is again undefined
behaviour, `none`). -/
def PTAM_RETRIEVE_BASE_DOUBLE (floatingP : List (Option CStr))
    (baseID : CStr) : Option Rat :=
  match scanPairs baseID floatingP with
  | none => none
  | some none => none
  | some (some c) => some ((atoi c.content : Int) : Rat)

/-- Embedding of `PTAM_ADD_BASE_DOUBLE` (`temp_access_mem.cpp:46-55`)
over the `floatingP` array and the `floatingP_LEN` counter (a `uint8_t`
starting at `0`).  In `floatingP[floatingP_LEN - 2]` the `uint8_t`
counter undergoes C++ integer promotion to `int`, so the subtraction is
signed: the write indices are `len - 2` and `len - 1` as signed
integers, evaluated **before** the counter is incremented.  A negative
or past-the-end index is an out-of-bounds array write — undefined
behaviour, `none` — which is what happens on the very first add
(`0 - 2 = -2`).  `converted` models the decimal string `itoa` produces
from the `double` argument (implicitly converted to `int`); in the
program `converted` is an **uninitialised pointer** and the `itoa`
write through it is itself undefined behaviour on every call, so this
model is the most favourable defined reading of the code — the store
fails its contract even under it. -/
def PTAM_ADD_BASE_DOUBLE (floatingP : List (Option CStr)) (len : Nat)
    (baseID : CStr) (data : Rat) (convertedAddr : Nat) :
    Option (List (Option CStr) × Nat) :=
  let converted : CStr := ⟨convertedAddr, itoaInt (cppIntTrunc data)⟩
  let i1 : Int := (len : Int) - 2
  let i2 : Int := (len : Int) - 1
  if 0 ≤ i1 ∧ i2 < (floatingP.length : Int) then
    some ((floatingP.set i1.toNat (some baseID)).set i2.toNat (some converted),
      (len + 2) % 256)
  else none

/-! ### The conditional clear-then-set slot update of SWP/SYS -/

/-- One positional slot of the SWP/SYS ingestion: a decoded value of
exactly `0` leaves the register unmodified, any non-zero value performs
clear then set with the decoded value (`_broadcast.cpp:473-502`). -/
def swpStep (m : SharedMemory) (k : String) (v : Rat) : SharedMemory :=
  if v ≠ 0 then (m.clearData k).storeDouble k v else m

/-! ### Auxiliary concrete stores -/

/-- A store holding the pre-transition flight state (`state = 1`,
`stateDescript = "PREP"`), as after boot (spec §4.2: initial state
`PREP`). -/
def memPrep : SharedMemory :=
  (SharedMemory.empty.storeDouble "state" 1).storeString "stateDescript" "PREP"

/-! ### Lemmas about the keyed-mapping primitives -/

theorem find?_filter_ne {α : Type} (m : List (String × α)) (k q : String)
    (h : q ≠ k) :
    (m.filter (fun p => p.1 != k)).find? (fun p => p.1 == q) =
      m.find? (fun p => p.1 == q) := by
  induction m with
  | nil => rfl
  | cons p rest ih =>
    by_cases hp : p.1 = k
    · have hpq : (p.1 == q) = false := by
        rw [hp]
        exact beq_eq_false_iff_ne.mpr (fun hkq => h hkq.symm)
      rw [List.filter_cons_of_neg (by simp [hp]),
        List.find?_cons_of_neg _ (by simp [hpq]), ih]
    · by_cases hq : p.1 = q
      · rw [List.filter_cons_of_pos (by simp [hp]),
          List.find?_cons_of_pos _ (by simp [hq]), List.find?_cons_of_pos _ (by simp [hq])]
      · rw [List.filter_cons_of_pos (by simp [hp]),
          List.find?_cons_of_neg _ (by simp [hq]), List.find?_cons_of_neg _ (by simp [hq]), ih]

theorem lookupKey_insertKey_self {α : Type} (m : List (String × α)) (k : String)
    (v : α) : lookupKey (insertKey m k v) k = some v := by
  simp [lookupKey, insertKey]

theorem lookupKey_insertKey_ne {α : Type} (m : List (String × α)) {k q : String}
    (v : α) (h : q ≠ k) : lookupKey (insertKey m k v) q = lookupKey m q := by
  unfold lookupKey insertKey
  rw [List.find?_cons_of_neg _ (by simp; exact fun hkq => h hkq.symm), find?_filter_ne m k q h]

theorem lookupKey_removeKey_self {α : Type} (m : List (String × α)) (k : String) :
    lookupKey (removeKey m k) k = none := by
  unfold lookupKey removeKey
  rw [List.find?_eq_none.mpr]
  · rfl
  · intro x hx
    rw [List.mem_filter] at hx
    simpa using hx.2

theorem lookupKey_removeKey_ne {α : Type} (m : List (String × α)) {k q : String}
    (h : q ≠ k) : lookupKey (removeKey m k) q = lookupKey m q := by
  unfold lookupKey removeKey
  rw [find?_filter_ne m k q h]

/-! ### Lemmas about the register-store operations -/

theorem getLastDouble_storeDouble_self (mem : SharedMemory) (k : String) (v : Rat) :
    (mem.storeDouble k v).getLastDouble k = v := by
  simp [SharedMemory.getLastDouble, SharedMemory.storeDouble, lookupKey_insertKey_self]

theorem getLastDouble_storeDouble_ne (mem : SharedMemory) {k q : String} (v : Rat)
    (h : q ≠ k) : (mem.storeDouble k v).getLastDouble q = mem.getLastDouble q := by
  simp [SharedMemory.getLastDouble, SharedMemory.storeDouble, lookupKey_insertKey_ne _ _ h]

theorem getLastDouble_storeString (mem : SharedMemory) (k : String) (v : String)
    (q : String) : (mem.storeString k v).getLastDouble q = mem.getLastDouble q := rfl

theorem getLastDouble_storeInt (mem : SharedMemory) (k : String) (v : Int)
    (q : String) : (mem.storeInt k v).getLastDouble q = mem.getLastDouble q := rfl

theorem getLastDouble_clearData_ne (mem : SharedMemory) {k q : String}
    (h : q ≠ k) : (mem.clearData k).getLastDouble q = mem.getLastDouble q := by
  simp [SharedMemory.getLastDouble, SharedMemory.clearData, lookupKey_removeKey_ne _ h]

theorem getLastString_storeString_self (mem : SharedMemory) (k : String) (v : String) :
    (mem.storeString k v).getLastString k = v := by
  simp [SharedMemory.getLastString, SharedMemory.storeString, lookupKey_insertKey_self]

theorem getLastString_storeString_ne (mem : SharedMemory) {k q : String} (v : String)
    (h : q ≠ k) : (mem.storeString k v).getLastString q = mem.getLastString q := by
  simp [SharedMemory.getLastString, SharedMemory.storeString, lookupKey_insertKey_ne _ _ h]

theorem getLastString_storeDouble (mem : SharedMemory) (k : String) (v : Rat)
    (q : String) : (mem.storeDouble k v).getLastString q = mem.getLastString q := rfl

theorem getLastString_storeInt (mem : SharedMemory) (k : String) (v : Int)
    (q : String) : (mem.storeInt k v).getLastString q = mem.getLastString q := rfl

theorem getLastString_clearData_ne (mem : SharedMemory) {k q : String}
    (h : q ≠ k) : (mem.clearData k).getLastString q = mem.getLastString q := by
  simp [SharedMemory.getLastString, SharedMemory.clearData, lookupKey_removeKey_ne _ h]

theorem getLastInt_storeDouble (mem : SharedMemory) (k : String) (v : Rat)
    (q : String) : (mem.storeDouble k v).getLastInt q = mem.getLastInt q := rfl

theorem getLastInt_storeString (mem : SharedMemory) (k : String) (v : String)
    (q : String) : (mem.storeString k v).getLastInt q = mem.getLastInt q := rfl

theorem getLastInt_clearData_self (mem : SharedMemory) (k : String) :
    (mem.clearData k).getLastInt k = 0 := by
  simp [SharedMemory.getLastInt, SharedMemory.clearData, lookupKey_removeKey_self]

theorem getLastInt_clearData_ne (mem : SharedMemory) {k q : String}
    (h : q ≠ k) : (mem.clearData k).getLastInt q = mem.getLastInt q := by
  simp [SharedMemory.getLastInt, SharedMemory.clearData, lookupKey_removeKey_ne _ h]

theorem lookup_swpStep_self (m : SharedMemory) (k : String) (v : Rat) :
    lookupKey (swpStep m k v).doubles k =
      (if v = 0 then lookupKey m.doubles k else some v) := by
  by_cases h : v = 0
  · simp [swpStep, h]
  · simp [swpStep, h, SharedMemory.storeDouble, SharedMemory.clearData,
      lookupKey_insertKey_self]

theorem lookup_swpStep_ne (m : SharedMemory) {k q : String} (v : Rat)
    (h : q ≠ k) :
    lookupKey (swpStep m k v).doubles q = lookupKey m.doubles q := by
  by_cases h0 : v = 0
  · simp [swpStep, h0]
  · simp [swpStep, h0, SharedMemory.storeDouble, SharedMemory.clearData,
      lookupKey_insertKey_ne _ _ h, lookupKey_removeKey_ne _ h]

theorem swpStep_ints_ne (m : SharedMemory) {k q : String} (v : Rat)
    (h : q ≠ k) :
    lookupKey (swpStep m k v).ints q = lookupKey m.ints q := by
  by_cases h0 : v = 0
  · simp [swpStep, h0]
  · simp [swpStep, h0, SharedMemory.storeDouble, SharedMemory.clearData,
      lookupKey_removeKey_ne _ h]

theorem swpStep_strs_ne (m : SharedMemory) {k q : String} (v : Rat)
    (h : q ≠ k) :
    lookupKey (swpStep m k v).strs q = lookupKey m.strs q := by
  by_cases h0 : v = 0
  · simp [swpStep, h0]
  · simp [swpStep, h0, SharedMemory.storeDouble, SharedMemory.clearData,
      lookupKey_removeKey_ne _ h]

/-- Helper: the success path of the AUTH handler produces exactly the
four-operation write sequence `authWriteSeq` applied to the initial
store. -/
theorem handle_AUTH_success_mem (token : String) (mem : SharedMemory)
    (hlen : token.length < MAX_DATA_LEN)
    (htok : token = mem.getLastString "arm_token") :
    (handle_AUTH_incoming token.length token mem).2.2 =
      applyOps mem authWriteSeq := by
  subst htok
  have hc : ¬ MAX_DATA_LEN ≤ (mem.getLastString "arm_token").length :=
    Nat.not_le.mpr hlen
  simp [handle_AUTH_incoming, hc, applyOps, authWriteSeq, applyOp]

/-! ### Claim theorems -/

/-- Claim C1: the AUTH comparison endpoint responds
`"STATE-CHANGE-SUCCESS"` iff the received token byte-for-byte equals
the string currently stored under `arm_token`; on match it writes
`state = 2` and `stateDescript = "ARMED"` into the store, and on
mismatch it responds `"STATE-CHANGE-FAIL"` and leaves the store
unchanged. -/
theorem C1_auth_state_change_iff (token : String) (mem : SharedMemory)
    (hlen : token.length < MAX_DATA_LEN) :
    ((handle_AUTH_incoming token.length token mem).2.1 =
        some "STATE-CHANGE-SUCCESS" ↔ token = mem.getLastString "arm_token") ∧
    (token = mem.getLastString "arm_token" →
      (handle_AUTH_incoming token.length token mem).2.2.getLastDouble "state" = 2 ∧
      (handle_AUTH_incoming token.length token mem).2.2.getLastString
        "stateDescript" = "ARMED") ∧
    (token ≠ mem.getLastString "arm_token" →
      (handle_AUTH_incoming token.length token mem).2.1 =
        some "STATE-CHANGE-FAIL" ∧
      (handle_AUTH_incoming token.length token mem).2.2 = mem) := by
  have hc : ¬ MAX_DATA_LEN ≤ token.length := Nat.not_le.mpr hlen
  by_cases heq : token = mem.getLastString "arm_token"
  · have hres : handle_AUTH_incoming token.length token mem =
        (.ok, some "STATE-CHANGE-SUCCESS",
          (((mem.clearData "state").storeDouble "state" 2).clearData
            "stateDescript").storeString "stateDescript" "ARMED") := by
      subst heq
      simp [handle_AUTH_incoming, hc]
    rw [hres]
    refine ⟨iff_of_true rfl heq, fun _ => ⟨?_, ?_⟩, fun hne => absurd heq hne⟩
    · rw [getLastDouble_storeString, getLastDouble_clearData_ne _ (by decide),
        getLastDouble_storeDouble_self]
    · rw [getLastString_storeString_self]
  · have hres : handle_AUTH_incoming token.length token mem =
        (.ok, some "STATE-CHANGE-FAIL", mem) := by
      simp [handle_AUTH_incoming, hc, heq]
    rw [hres]
    exact ⟨iff_of_false (by simp) heq, fun h => absurd h heq, fun _ => ⟨rfl, rfl⟩⟩

/-- Witness for C1: a concrete matching token arms the vehicle. -/
theorem C1_auth_state_change_iff_witness :
    ("ABC123" : String).length < MAX_DATA_LEN ∧
    ((handle_AUTH_incoming "ABC123".length "ABC123"
        (SharedMemory.empty.storeString "arm_token" "ABC123")).2.1 =
      some "STATE-CHANGE-SUCCESS" ↔
      "ABC123" = (SharedMemory.empty.storeString "arm_token"
        "ABC123").getLastString "arm_token") :=
  ⟨by decide,
    (C1_auth_state_change_iff "ABC123"
      (SharedMemory.empty.storeString "arm_token" "ABC123") (by decide)).1⟩

/-- Claim C3: a declared content length at or above the 100-byte cap is
rejected with `ESP_FAIL` by every command-ingestion handler before the
body is received (the result does not depend on the body) and without
mutating any register. -/
theorem C3_oversize_rejected (len : Nat) (body : String) (mem : SharedMemory)
    (h : MAX_DATA_LEN ≤ len) :
    handle_SWP_incoming len body mem = some (.fail, mem) ∧
    handle_SYS_incoming len body mem = some (.fail, mem) ∧
    handle_STATE_incoming len body mem = some (.fail, mem, none) ∧
    handle_AUTH_incoming len body mem = (.fail, none, mem) := by
  refine ⟨?_, ?_, ?_, ?_⟩ <;>
    simp [handle_SWP_incoming, handle_SYS_incoming, handle_STATE_incoming,
      handle_AUTH_incoming, h]

/-- Witness for C3: a request declaring exactly 100 bytes is rejected
with the store unchanged. -/
theorem C3_oversize_rejected_witness :
    MAX_DATA_LEN ≤ 100 ∧
    handle_SWP_incoming 100 "X" memPrep = some (.fail, memPrep) :=
  ⟨by decide, (C3_oversize_rejected 100 "X" memPrep (by decide)).1⟩

/-- Claim C6: a payload below the byte cap that decodes to fewer than
five pairs drives the SWP, SYS and STATE handlers into the
out-of-range branch of the embedding (the C++ code indexes
`values[0]`..`values[4]` with no bounds check). -/
theorem C6_malformed_reads_past_end :
    ("A1" : String).length < MAX_DATA_LEN ∧
    extractValuesAndIds "A1".toList = some ([['A']], [1]) ∧
    handle_SWP_incoming "A1".length "A1" SharedMemory.empty = none ∧
    handle_SYS_incoming "A1".length "A1" SharedMemory.empty = none ∧
    handle_STATE_incoming "A1".length "A1" SharedMemory.empty = none := by
  with_unfolding_all decide

/-- Claim C7: token issuance fails closed — a failing flight
configuration check issues no token, sends no response and leaves the
store unmodified, while a passing check derives a 6-character
alphanumeric token from the seeds, clears then stores it under
`arm_token`, and returns it. -/
theorem C7_token_issue_fails_closed (v : Int) (s1 s2 : Nat) (mem : SharedMemory) :
    (v = 0 → handle_arm_token_request v s1 s2 mem = (none, mem)) ∧
    (v ≠ 0 →
      handle_arm_token_request v s1 s2 mem =
        (some (generateRandomAlphanumericToken s1 s2 6),
          (mem.clearData "arm_token").storeString "arm_token"
            (generateRandomAlphanumericToken s1 s2 6)) ∧
      (generateRandomAlphanumericToken s1 s2 6).length = 6 ∧
      (∀ c ∈ (generateRandomAlphanumericToken s1 s2 6).toList, c.isAlphanum) ∧
      (handle_arm_token_request v s1 s2 mem).2.getLastString "arm_token" =
        generateRandomAlphanumericToken s1 s2 6) := by
  constructor
  · intro h0
    simp [handle_arm_token_request, h0]
  · intro hne
    have hres : handle_arm_token_request v s1 s2 mem =
        (some (generateRandomAlphanumericToken s1 s2 6),
          (mem.clearData "arm_token").storeString "arm_token"
            (generateRandomAlphanumericToken s1 s2 6)) := by
      simp [handle_arm_token_request, hne]
    refine ⟨hres, ?_, ?_, ?_⟩
    · simp [generateRandomAlphanumericToken, String.length]
    · intro c hc
      simp only [generateRandomAlphanumericToken, String.toList, String.mk,
        List.mem_map, List.mem_range] at hc
      obtain ⟨i, _, rfl⟩ := hc
      have hlt : (s1 + (i + 1) * s2 + i * i) % 62 < alphanumerics.length := by
        have : (s1 + (i + 1) * s2 + i * i) % 62 < 62 := Nat.mod_lt _ (by decide)
        simpa [alphanumerics] using this
      have hmem : alphanumerics.getD ((s1 + (i + 1) * s2 + i * i) % 62) 'A' ∈
          alphanumerics := by
        rw [List.getD_eq_getElem _ _ hlt]
        exact List.getElem_mem hlt
      revert hmem
      have : ∀ c ∈ alphanumerics, c.isAlphanum := by decide
      exact this _
    · rw [hres]
      exact getLastString_storeString_self _ _ _

/-- Witness for C7: concrete seeds with a passing configuration check
yield a stored 6-character token; a failing check is a silent no-op. -/
theorem C7_token_issue_fails_closed_witness :
    handle_arm_token_request 0 3 4 memPrep = (none, memPrep) ∧
    (generateRandomAlphanumericToken 3 4 6).length = 6 :=
  ⟨(C7_token_issue_fails_closed 0 3 4 memPrep).1 rfl,
    ((C7_token_issue_fails_closed 1 3 4 memPrep).2 (by decide)).2.1⟩

/-- Claim C9 is refuted: a reader scheduled after the first two of the
four unlocked store operations of the AUTH success path observes
`state = 2` still paired with `stateDescript = "PREP"` — an
out-of-sync intermediate state reachable during the transition. -/
theorem C9_reader_observes_out_of_sync :
    observableDuringAuth memPrep (applyOps memPrep (authWriteSeq.take 2)) ∧
    (applyOps memPrep (authWriteSeq.take 2)).getLastDouble "state" = 2 ∧
    (applyOps memPrep (authWriteSeq.take 2)).getLastString "stateDescript" =
      "PREP" :=
  ⟨⟨2, by decide, rfl⟩, by with_unfolding_all decide, by with_unfolding_all decide⟩

/-- Claim C9 (amended): the state-transition write pair of the AUTH
success path is atomic only at the granularity of single store
operations — after the complete four-operation sequence the two keys
are consistent (`state = 2`, `stateDescript = "ARMED"`) from any
initial store, but an intermediate observation with `state = 2` and
`stateDescript = "PREP"` is reachable by an unsynchronised concurrent
reader. -/
theorem C9_transition_atomic_only_sequentially :
    (∀ (token : String) (mem : SharedMemory),
      token.length < MAX_DATA_LEN → token = mem.getLastString "arm_token" →
      (handle_AUTH_incoming token.length token mem).2.2 =
        applyOps mem authWriteSeq) ∧
    (∀ mem : SharedMemory,
      (applyOps mem authWriteSeq).getLastDouble "state" = 2 ∧
      (applyOps mem authWriteSeq).getLastString "stateDescript" = "ARMED") ∧
    (∃ obs : SharedMemory, observableDuringAuth memPrep obs ∧
      obs.getLastDouble "state" = 2 ∧ obs.getLastString "stateDescript" = "PREP") := by
  refine ⟨handle_AUTH_success_mem, fun mem => ⟨?_, ?_⟩,
    ⟨applyOps memPrep (authWriteSeq.take 2), ⟨2, by decide, rfl⟩,
      by with_unfolding_all decide, by with_unfolding_all decide⟩⟩
  · show ((((mem.clearData "state").storeDouble "state" 2).clearData
      "stateDescript").storeString "stateDescript" "ARMED").getLastDouble "state" = 2
    rw [getLastDouble_storeString, getLastDouble_clearData_ne _ (by decide),
      getLastDouble_storeDouble_self]
  · show ((((mem.clearData "state").storeDouble "state" 2).clearData
      "stateDescript").storeString "stateDescript" "ARMED").getLastString
        "stateDescript" = "ARMED"
    rw [getLastString_storeString_self]

/-- Witness for C9 (amended): the sequential-consistency conjunct at a
concrete store. -/
theorem C9_transition_atomic_only_sequentially_witness :
    (applyOps memPrep authWriteSeq).getLastDouble "state" = 2 ∧
    (applyOps memPrep authWriteSeq).getLastString "stateDescript" = "ARMED" :=
  (C9_transition_atomic_only_sequentially).2.1 memPrep

/-- Claim C10: the AUTH handler stores the flight-state code in the
double-kind mapping while the logger reads the integer-kind mapping,
and the kinds are independent — so after every successful verify the
logger's `getLastInt("state")` still returns the absent-key sentinel
`0`, not `2`, although `getLastDouble("state")` returns `2`. -/
theorem C10_auth_logger_kind_mismatch (mem : SharedMemory) (token : String)
    (hlen : token.length < MAX_DATA_LEN)
    (htok : token = mem.getLastString "arm_token") :
    loggerStateRead (handle_AUTH_incoming token.length token mem).2.2 = 0 ∧
    (handle_AUTH_incoming token.length token mem).2.2.getLastDouble "state" = 2 := by
  have hc : ¬ MAX_DATA_LEN ≤ token.length := Nat.not_le.mpr hlen
  subst htok
  have hres : (handle_AUTH_incoming (mem.getLastString "arm_token").length
      (mem.getLastString "arm_token") mem).2.2 =
      (((mem.clearData "state").storeDouble "state" 2).clearData
        "stateDescript").storeString "stateDescript" "ARMED" := by
    simp [handle_AUTH_incoming, hc]
  rw [hres]
  constructor
  · show ((((mem.clearData "state").storeDouble "state" 2).clearData
      "stateDescript").storeString "stateDescript" "ARMED").getLastInt "state" = 0
    rw [getLastInt_storeString, getLastInt_clearData_ne _ (by decide),
      getLastInt_storeDouble, getLastInt_clearData_self]
  · rw [getLastDouble_storeString, getLastDouble_clearData_ne _ (by decide),
      getLastDouble_storeDouble_self]

/-- Witness for C10: after a concrete successful verify the logger
reads state `0` while the double-kind register holds `2`. -/
theorem C10_auth_logger_kind_mismatch_witness :
    loggerStateRead (handle_AUTH_incoming "QQ1".length "QQ1"
      (memPrep.storeString "arm_token" "QQ1")).2.2 = 0 :=
  (C10_auth_logger_kind_mismatch (memPrep.storeString "arm_token" "QQ1") "QQ1"
    (by decide) (by decide)).1

/-- Claim C2 / the deprecated PTAM store: the retrieval scan compares
`char*` keys by pointer identity, so a key with identical contents at a
different address is never found (`none` — the `temp_data` read is
undefined behaviour) while the identical pointer is found, refuting
"retrieval must locate the entry by key content"; and the set direction
is broken before any lookup can happen: `PTAM_ADD_BASE_DOUBLE` with the
zero-initialised `floatingP_LEN` writes at the promoted signed index
`0 - 2 = -2`, an out-of-bounds array write (the embedding's undefined
behaviour branch), on every first add regardless of the array. -/
theorem C2_ptam_roundtrip_fails :
    PTAM_RETRIEVE_BASE_DOUBLE [some ⟨1, "k"⟩, some ⟨2, "3"⟩] ⟨3, "k"⟩ = none ∧
    (⟨3, "k"⟩ : CStr).content = (⟨1, "k"⟩ : CStr).content ∧
    PTAM_RETRIEVE_BASE_DOUBLE [some ⟨1, "k"⟩, some ⟨2, "3"⟩] ⟨1, "k"⟩ = some 3 ∧
    PTAM_ADD_BASE_DOUBLE (List.replicate 4 none) 0 ⟨1, "k"⟩ (157/2 : Rat) 2 =
      none ∧
    (∀ (slots : List (Option CStr)) (baseID : CStr) (data : Rat)
      (convertedAddr : Nat),
      PTAM_ADD_BASE_DOUBLE slots 0 baseID data convertedAddr = none) := by
  refine ⟨by with_unfolding_all decide, rfl, by with_unfolding_all decide,
    by with_unfolding_all decide, ?_⟩
  intro slots baseID data convertedAddr
  simp [PTAM_ADD_BASE_DOUBLE]

/-- Claim C4: for a well-formed 5-pair command ingested by the SWP
endpoint, a decoded value of exactly `0` at position `i` leaves the
corresponding reserved register (`TLat`, `TLong`, `TAlt`, `CAlt`,
`TVel`) unmodified, a non-zero value performs clear-then-set of that
register with the decoded value, and no other register of any kind is
touched. -/
theorem C4_zero_means_noop (body : String) (mem : SharedMemory)
    (ids : List (List Char)) (v0 v1 v2 v3 v4 : Rat)
    (hlen : body.length < MAX_DATA_LEN)
    (hdec : extractValuesAndIds body.toList = some (ids, [v0, v1, v2, v3, v4])) :
    ∃ mem', handle_SWP_incoming body.length body mem = some (.ok, mem') ∧
      lookupKey mem'.doubles "TLat" =
        (if v0 = 0 then lookupKey mem.doubles "TLat" else some v0) ∧
      lookupKey mem'.doubles "TLong" =
        (if v1 = 0 then lookupKey mem.doubles "TLong" else some v1) ∧
      lookupKey mem'.doubles "TAlt" =
        (if v2 = 0 then lookupKey mem.doubles "TAlt" else some v2) ∧
      lookupKey mem'.doubles "CAlt" =
        (if v3 = 0 then lookupKey mem.doubles "CAlt" else some v3) ∧
      lookupKey mem'.doubles "TVel" =
        (if v4 = 0 then lookupKey mem.doubles "TVel" else some v4) ∧
      (∀ q : String, q ∉ ["TLat", "TLong", "TAlt", "CAlt", "TVel"] →
        lookupKey mem'.doubles q = lookupKey mem.doubles q ∧
        lookupKey mem'.ints q = lookupKey mem.ints q ∧
        lookupKey mem'.strs q = lookupKey mem.strs q) := by
  have hc : ¬ MAX_DATA_LEN ≤ body.length := Nat.not_le.mpr hlen
  have hdec' : extractValuesAndIds body.data = some (ids, [v0, v1, v2, v3, v4]) :=
    hdec
  have hrun : handle_SWP_incoming body.length body mem =
      some (.ok, swpStep (swpStep (swpStep (swpStep (swpStep mem "TLat" v0)
        "TLong" v1) "TAlt" v2) "CAlt" v3) "TVel" v4) := by
    simp [handle_SWP_incoming, hc, hdec', swpStep]
  refine ⟨_, hrun, ?_, ?_, ?_, ?_, ?_, ?_⟩
  · rw [lookup_swpStep_ne _ _ (by decide), lookup_swpStep_ne _ _ (by decide),
      lookup_swpStep_ne _ _ (by decide), lookup_swpStep_ne _ _ (by decide),
      lookup_swpStep_self]
  · rw [lookup_swpStep_ne _ _ (by decide), lookup_swpStep_ne _ _ (by decide),
      lookup_swpStep_ne _ _ (by decide), lookup_swpStep_self,
      lookup_swpStep_ne _ _ (by decide)]
  · rw [lookup_swpStep_ne _ _ (by decide), lookup_swpStep_ne _ _ (by decide),
      lookup_swpStep_self, lookup_swpStep_ne _ _ (by decide),
      lookup_swpStep_ne _ _ (by decide)]
  · rw [lookup_swpStep_ne _ _ (by decide), lookup_swpStep_self,
      lookup_swpStep_ne _ _ (by decide), lookup_swpStep_ne _ _ (by decide),
      lookup_swpStep_ne _ _ (by decide)]
  · rw [lookup_swpStep_self, lookup_swpStep_ne _ _ (by decide),
      lookup_swpStep_ne _ _ (by decide), lookup_swpStep_ne _ _ (by decide),
      lookup_swpStep_ne _ _ (by decide)]
  · intro q hq
    simp only [List.mem_cons, List.mem_singleton, not_or] at hq
    obtain ⟨h1, h2, h3, h4, h5, -⟩ := hq
    refine ⟨?_, ?_, ?_⟩
    · rw [lookup_swpStep_ne _ _ h5, lookup_swpStep_ne _ _ h4,
        lookup_swpStep_ne _ _ h3, lookup_swpStep_ne _ _ h2,
        lookup_swpStep_ne _ _ h1]
    · rw [swpStep_ints_ne _ _ h5, swpStep_ints_ne _ _ h4,
        swpStep_ints_ne _ _ h3, swpStep_ints_ne _ _ h2, swpStep_ints_ne _ _ h1]
    · rw [swpStep_strs_ne _ _ h5, swpStep_strs_ne _ _ h4,
        swpStep_strs_ne _ _ h3, swpStep_strs_ne _ _ h2, swpStep_strs_ne _ _ h1]

/-- Witness for C4: a concrete command with zeros in positions 0, 2 and
4 is accepted by the handler. -/
theorem C4_zero_means_noop_witness :
    ∃ mem', handle_SWP_incoming ("A0_B2_C0_D4_E0" : String).length
      "A0_B2_C0_D4_E0" memPrep = some (.ok, mem') := by
  obtain ⟨mem', h, _⟩ := C4_zero_means_noop "A0_B2_C0_D4_E0" memPrep
    [['A'], ['B'], ['C'], ['D'], ['E']] 0 2 0 4 0 (by decide)
    (by with_unfolding_all decide)
  exact ⟨mem', h⟩

/-- Claim C8 is refuted at the value `2.9`: it is neither `0` nor `1`,
`2` or `3`, yet the STATE handler truncates it with `int(values[0])`
and invokes the ARMED transition. -/
theorem C8_trunc_dispatch_counterexample :
    (extractValuesAndIds "A2.9_B1_C1_D1_E1".toList).map (fun p => p.2) =
      some [29/10, 1, 1, 1, 1] ∧
    (29/10 : Rat) ≠ 0 ∧ (29/10 : Rat) ≠ 1 ∧ (29/10 : Rat) ≠ 2 ∧
    (29/10 : Rat) ≠ 3 ∧
    handle_STATE_incoming ("A2.9_B1_C1_D1_E1" : String).length
      "A2.9_B1_C1_D1_E1" memPrep =
      some (.ok, updateState .ARMED memPrep, some .ARMED) := by
  with_unfolding_all decide

/-- Claim C8 (amended): STATE ingestion dispatches through the state
machine on the `int` truncation of the first decoded value — no
transition and no register write when the value is exactly `0`,
transition to PREP when the truncation is `1`, ARMED when `2`, BYPASS
when `3`, and no transition (and no write) for every other
truncation. -/
theorem C8_state_dispatch_by_truncation (body : String) (mem : SharedMemory)
    (ids : List (List Char)) (v0 v1 v2 v3 v4 : Rat)
    (hlen : body.length < MAX_DATA_LEN)
    (hdec : extractValuesAndIds body.toList = some (ids, [v0, v1, v2, v3, v4])) :
    (v0 = 0 →
      handle_STATE_incoming body.length body mem = some (.ok, mem, none)) ∧
    (v0 ≠ 0 → cppIntTrunc v0 = 1 →
      handle_STATE_incoming body.length body mem =
        some (.ok, updateState .PREP mem, some .PREP)) ∧
    (v0 ≠ 0 → cppIntTrunc v0 = 2 →
      handle_STATE_incoming body.length body mem =
        some (.ok, updateState .ARMED mem, some .ARMED)) ∧
    (v0 ≠ 0 → cppIntTrunc v0 = 3 →
      handle_STATE_incoming body.length body mem =
        some (.ok, updateState .BYPASS mem, some .BYPASS)) ∧
    (v0 ≠ 0 → cppIntTrunc v0 ≠ 1 → cppIntTrunc v0 ≠ 2 → cppIntTrunc v0 ≠ 3 →
      handle_STATE_incoming body.length body mem = some (.ok, mem, none)) := by
  have hc : ¬ MAX_DATA_LEN ≤ body.length := Nat.not_le.mpr hlen
  have hdec' : extractValuesAndIds body.data = some (ids, [v0, v1, v2, v3, v4]) :=
    hdec
  refine ⟨?_, ?_, ?_, ?_, ?_⟩ <;> intros <;>
    simp [handle_STATE_incoming, hc, hdec', *]

/-- Witness for C8 (amended): a first value of `1` drives the PREP
transition. -/
theorem C8_state_dispatch_by_truncation_witness :
    handle_STATE_incoming ("A1_B0_C0_D0_E0" : String).length "A1_B0_C0_D0_E0"
      memPrep = some (.ok, updateState .PREP memPrep, some .PREP) :=
  ((C8_state_dispatch_by_truncation "A1_B0_C0_D0_E0" memPrep
    [['A'], ['B'], ['C'], ['D'], ['E']] 1 0 0 0 0 (by decide)
    (by with_unfolding_all decide)).2.1
    (by with_unfolding_all decide) (by with_unfolding_all decide))

/-! ### Digit-string lemmas for the codec -/

theorem natDigitsAux_eq_digits :
    ∀ (fuel n : Nat), n ≤ fuel → natDigitsAux fuel n = Nat.digits 10 n := by
  intro fuel
  induction fuel with
  | zero =>
    intro n hn
    interval_cases n
    simp [natDigitsAux]
  | succ fuel ih =>
    intro n hn
    rw [natDigitsAux]
    by_cases h : n = 0
    · rw [if_pos h, h, Nat.digits_zero]
    · rw [if_neg h, Nat.digits_def' (by norm_num : 1 < 10) (Nat.pos_of_ne_zero h),
        ih (n / 10) ?_]
      have hlt : n / 10 < n := Nat.div_lt_self (Nat.pos_of_ne_zero h) (by norm_num)
      omega

theorem natChars_eq (n : Nat) :
    natChars n = if n = 0 then ['0'] else (Nat.digits 10 n).reverse.map digitChar := by
  rw [natChars]
  by_cases h : n = 0
  · rw [if_pos h, if_pos h]
  · rw [if_neg h, if_neg h, natDigitsAux_eq_digits n n le_rfl]

theorem digitVal_digitChar {d : Nat} (h : d < 10) :
    digitVal (digitChar d) = d := by
  revert h
  revert d
  decide

theorem digitChar_isDigit {d : Nat} (h : d < 10) :
    (digitChar d).isDigit = true := by
  revert h
  revert d
  decide

theorem digitsVal_append_singleton (ds : List Char) (c : Char) :
    digitsVal (ds ++ [c]) = 10 * digitsVal ds + digitVal c := by
  simp [digitsVal, List.foldl_append]

theorem isDigit_natChars (n : Nat) : ∀ c ∈ natChars n, c.isDigit = true := by
  intro c hc
  by_cases h : n = 0
  · subst h
    have h0 : natChars 0 = ['0'] := rfl
    rw [h0, List.mem_singleton] at hc
    subst hc
    decide
  · rw [natChars_eq, if_neg h] at hc
    simp only [List.mem_map, List.mem_reverse] at hc
    obtain ⟨d, hd, rfl⟩ := hc
    exact digitChar_isDigit (Nat.digits_lt_base (by norm_num) hd)

theorem natChars_ne_nil (n : Nat) : natChars n ≠ [] := by
  by_cases h : n = 0
  · subst h
    simp [natChars_eq]
  · rw [natChars_eq, if_neg h]
    simp [Nat.digits_ne_nil_iff_ne_zero.mpr h]

theorem digitsVal_map_digitChar (L : List Nat) (h : ∀ d ∈ L, d < 10) :
    digitsVal (L.reverse.map digitChar) = Nat.ofDigits 10 L := by
  induction L with
  | nil => rfl
  | cons d rest ih =>
    rw [List.reverse_cons, List.map_append, List.map_singleton,
      digitsVal_append_singleton,
      ih (fun x hx => h x (List.mem_cons_of_mem _ hx)), Nat.ofDigits_cons,
      digitVal_digitChar (h d (List.mem_cons_self _ _))]
    ring

theorem digitsVal_natChars (n : Nat) : digitsVal (natChars n) = n := by
  by_cases h : n = 0
  · subst h
    rfl
  · rw [natChars_eq, if_neg h,
      digitsVal_map_digitChar _ (fun d hd => Nat.digits_lt_base (by norm_num) hd),
      Nat.ofDigits_digits]

theorem natChars_length_le {m k : Nat} (hm : m < 10 ^ k) (hk : 1 ≤ k) :
    (natChars m).length ≤ k := by
  by_cases h : m = 0
  · subst h
    simpa [natChars] using hk
  · rw [natChars_eq, if_neg h]
    simp only [List.length_map, List.length_reverse]
    rw [Nat.digits_len 10 m (by norm_num) h]
    have := Nat.log_lt_of_lt_pow h hm
    omega

theorem natChars_lt_pow (m : Nat) : m < 10 ^ (natChars m).length := by
  by_cases h : m = 0
  · subst h
    norm_num [natChars]
  · rw [natChars_eq, if_neg h]
    simp only [List.length_map, List.length_reverse]
    exact Nat.lt_base_pow_length_digits (by norm_num)

theorem digitsVal_replicate_append (z : Nat) (ds : List Char) :
    digitsVal (List.replicate z '0' ++ ds) = digitsVal ds := by
  induction z with
  | zero => rfl
  | succ z ih =>
    rw [List.replicate_succ, List.cons_append]
    calc digitsVal ('0' :: (List.replicate z '0' ++ ds))
        = digitsVal (List.replicate z '0' ++ ds) := rfl
      _ = digitsVal ds := ih

/-! ### Splitting a digit run off a character list -/

theorem takeWhile_digits_append (ds rest : List Char)
    (h1 : ∀ c ∈ ds, c.isDigit = true)
    (h2 : ∀ c, rest.head? = some c → c.isDigit = false) :
    (ds ++ rest).takeWhile Char.isDigit = ds := by
  induction ds with
  | nil =>
    cases rest with
    | nil => rfl
    | cons c t => simp [List.takeWhile_cons, h2 c rfl]
  | cons d dt ih =>
    rw [List.cons_append, List.takeWhile_cons,
      if_pos (h1 d (List.mem_cons_self _ _)),
      ih (fun c hc => h1 c (List.mem_cons_of_mem _ hc))]

theorem dropWhile_digits_append (ds rest : List Char)
    (h1 : ∀ c ∈ ds, c.isDigit = true)
    (h2 : ∀ c, rest.head? = some c → c.isDigit = false) :
    (ds ++ rest).dropWhile Char.isDigit = rest := by
  induction ds with
  | nil =>
    cases rest with
    | nil => rfl
    | cons c t => simp [List.dropWhile_cons, h2 c rfl]
  | cons d dt ih =>
    rw [List.cons_append, List.dropWhile_cons,
      if_pos (h1 d (List.mem_cons_self _ _)),
      ih (fun c hc => h1 c (List.mem_cons_of_mem _ hc))]

theorem takeDigits_exact (ds rest : List Char)
    (h1 : ∀ c ∈ ds, c.isDigit = true)
    (h2 : ∀ c, rest.head? = some c → c.isDigit = false) :
    takeDigits (ds ++ rest) = (ds, rest) := by
  rw [takeDigits, takeWhile_digits_append ds rest h1 h2,
    dropWhile_digits_append ds rest h1 h2]

/-! ### Character-class facts -/

theorem isDigit_ne_minus {c : Char} (h : c.isDigit = true) : c ≠ '-' := by
  intro e
  subst e
  exact absurd h (by decide)

theorem isDigit_ne_plus {c : Char} (h : c.isDigit = true) : c ≠ '+' := by
  intro e
  subst e
  exact absurd h (by decide)

theorem isDigit_ne_dot {c : Char} (h : c.isDigit = true) : c ≠ '.' := by
  intro e
  subst e
  exact absurd h (by decide)

theorem isDigit_isNumChar {c : Char} (h : c.isDigit = true) :
    isNumChar c = true := by
  simp [isNumChar, h]

theorem numChar_ne_underscore {c : Char} (h : isNumChar c = true) : c ≠ '_' := by
  intro e
  subst e
  exact absurd h (by decide)

theorem stripSign_not_sign {c : Char} (t : List Char) (h1 : c ≠ '-')
    (h2 : c ≠ '+') : stripSign (c :: t) = (false, c :: t) := by
  simp [stripSign, h1, h2]

theorem stripSign_minus (t : List Char) : stripSign ('-' :: t) = (true, t) := by
  simp [stripSign]

theorem splitFrac_dot (t : List Char) : splitFrac ('.' :: t) = takeDigits t := by
  simp [splitFrac]

/-! ### Facts about the decimal exponent and the renderer -/

theorem decExponent_dvd {d k : Nat} (h : decExponent d = some k) :
    d ∣ 10 ^ k := by
  rw [decExponent] at h
  split_ifs at h with hc
  · injection h with hk
    generalize ha : multAux d 2 d = a at hc hk
    generalize hb : multAux d 5 d = b at hc hk
    subst hk
    rw [hc]
    have h10 : (10 : Nat) ^ max a b = 2 ^ max a b * 5 ^ max a b := by
      rw [← Nat.mul_pow]
    rw [h10]
    exact Nat.mul_dvd_mul (Nat.pow_dvd_pow 2 (Nat.le_max_left _ _))
      (Nat.pow_dvd_pow 5 (Nat.le_max_right _ _))

/-- Unfolding of a successful `renderDomain`: the decimal scale comes
from `decExponent` and the two exactness conditions of the `%g` model
hold. -/
theorem renderDomain_some {q : Rat} {k : Nat} (h : renderDomain q = some k) :
    decExponent q.den = some k ∧
    (natChars (q.num.natAbs * (10 ^ k / q.den))).length ≤ 6 ∧
    k ≤ (natChars (q.num.natAbs * (10 ^ k / q.den))).length + 3 := by
  rw [renderDomain] at h
  cases hde : decExponent q.den with
  | none =>
    rw [hde] at h
    cases h
  | some k2 =>
    simp only [hde] at h
    split_ifs at h with hg
    injection h with hk
    subst hk
    exact ⟨rfl, hg.1, hg.2⟩

/-- The explicit numeral in `stodOverflowBound` is
`2 ^ 1024 - 2 ^ 970`, written with nested powers. -/
theorem stodOverflowBound_eq :
    stodOverflowBound = ((((2 : Nat) ^ 128) ^ 8 - ((2 : Nat) ^ 97) ^ 10 : Nat) : Rat) := by
  rw [stodOverflowBound]
  norm_num

theorem stodGuard_some {v : Rat} (rest : List Char)
    (h : |v| < stodOverflowBound) : stodGuard v rest = some (v, rest) := by
  rw [stodGuard, if_neg (not_le.mpr h)]

/-- Reduction of `stodParse` on an unsigned numeral and on its
negation, given the splitting behaviour of its two digit runs and that
the value stays below the `double` overflow threshold. -/
theorem stodParse_pos_neg (U d1 d2 rest : List Char)
    (hne : d1 ≠ [])
    (htd : takeDigits U = (d1, rest))
    (hsf : splitFrac rest = (d2, []))
    (hhead : ∀ c, U.head? = some c → (c ≠ '-' ∧ c ≠ '+'))
    (hU : U ≠ [])
    (hlt : (digitsVal d1 : Rat) + (digitsVal d2 : Rat) / (10 : Rat) ^ d2.length <
      stodOverflowBound) :
    stodParse U =
      some ((digitsVal d1 : Rat) + (digitsVal d2 : Rat) / (10 : Rat) ^ d2.length, []) ∧
    stodParse ('-' :: U) =
      some (-((digitsVal d1 : Rat) + (digitsVal d2 : Rat) / (10 : Rat) ^ d2.length), []) := by
  obtain ⟨c, t, rfl⟩ := List.exists_cons_of_ne_nil hU
  have hc := hhead c rfl
  have hd1e : d1.isEmpty = false := by
    cases d1 with
    | nil => exact absurd rfl hne
    | cons x xs => rfl
  have hv0 : (0 : Rat) ≤
      (digitsVal d1 : Rat) + (digitsVal d2 : Rat) / (10 : Rat) ^ d2.length := by
    positivity
  constructor
  · simp only [stodParse, stripSign_not_sign _ hc.1 hc.2, htd, hsf, hd1e]
    simp only [Bool.false_and, Bool.false_eq_true, if_false]
    rw [stodGuard_some _ (by rw [abs_of_nonneg hv0]; exact hlt)]
  · simp [stodParse, stripSign_minus, htd, hsf, hd1e]
    apply stodGuard_some
    rw [abs_lt]
    constructor <;> linarith [hlt, hv0]

/-- The digit run of `natChars` splits off exactly. -/
theorem takeDigits_natChars_append (n : Nat) (rest : List Char)
    (h2 : ∀ c, rest.head? = some c → c.isDigit = false) :
    takeDigits (natChars n ++ rest) = (natChars n, rest) :=
  takeDigits_exact _ _ (isDigit_natChars n) h2

/-- Parse of the rendered unsigned numeral `M / 10 ^ k` (integer digits
of `M / 10 ^ k`, then for `k ≥ 1` a dot and the `k` zero-padded digits
of `M % 10 ^ k`). -/
theorem stodParse_rendered (M k : Nat) (hM : (M : Rat) < stodOverflowBound) :
    (k = 0 → stodParse (natChars M) = some ((M : Rat), []) ∧
      stodParse ('-' :: natChars M) = some (-(M : Rat), [])) ∧
    (1 ≤ k →
      stodParse (natChars (M / 10 ^ k) ++
        '.' :: (List.replicate (k - (natChars (M % 10 ^ k)).length) '0' ++
          natChars (M % 10 ^ k))) = some ((M : Rat) / (10 : Rat) ^ k, []) ∧
      stodParse ('-' :: (natChars (M / 10 ^ k) ++
        '.' :: (List.replicate (k - (natChars (M % 10 ^ k)).length) '0' ++
          natChars (M % 10 ^ k)))) = some (-((M : Rat) / (10 : Rat) ^ k), [])) := by
  constructor
  · intro hk
    subst hk
    have htd : takeDigits (natChars M ++ []) = (natChars M, []) :=
      takeDigits_natChars_append M [] (fun c hc => by cases hc)
    rw [List.append_nil] at htd
    have hv : (digitsVal (natChars M) : Rat) +
        (digitsVal ([] : List Char) : Rat) / (10 : Rat) ^ ([] : List Char).length =
        (M : Rat) := by
      rw [digitsVal_natChars]
      norm_num [digitsVal]
    have hmain := stodParse_pos_neg (natChars M) (natChars M) [] [] (natChars_ne_nil M)
      htd rfl
      (fun c hc => by
        have hd : c.isDigit = true := by
          have hm : c ∈ natChars M := by
            cases he : natChars M with
            | nil => exact absurd he (natChars_ne_nil M)
            | cons x xs =>
              rw [he] at hc
              injection hc with hcx
              rw [hcx]
              exact List.mem_cons_self _ _
          exact isDigit_natChars M c hm
        exact ⟨isDigit_ne_minus hd, isDigit_ne_plus hd⟩)
      (natChars_ne_nil M)
      (by rw [hv]; exact hM)
    rw [hv] at hmain
    exact hmain
  · intro hk
    set F := List.replicate (k - (natChars (M % 10 ^ k)).length) '0' ++
      natChars (M % 10 ^ k) with hF
    have hFdigits : ∀ c ∈ F, c.isDigit = true := by
      intro c hc
      rw [hF, List.mem_append] at hc
      rcases hc with hc | hc
      · rw [List.eq_of_mem_replicate hc]
        decide
      · exact isDigit_natChars _ c hc
    have hFlen : F.length = k := by
      rw [hF, List.length_append, List.length_replicate]
      have hlt : M % 10 ^ k < 10 ^ k := Nat.mod_lt _ (Nat.pos_pow_of_pos k (by norm_num))
      have := natChars_length_le hlt hk
      omega
    have hFval : digitsVal F = M % 10 ^ k := by
      rw [hF, digitsVal_replicate_append, digitsVal_natChars]
    have htd : takeDigits (natChars (M / 10 ^ k) ++ '.' :: F) =
        (natChars (M / 10 ^ k), '.' :: F) :=
      takeDigits_natChars_append _ _ (fun c hc => by
        injection hc with hcx
        rw [← hcx]
        decide)
    have hsf : splitFrac ('.' :: F) = (F, []) := by
      rw [splitFrac_dot]
      have := takeDigits_exact F [] hFdigits (fun c hc => by cases hc)
      rwa [List.append_nil] at this
    have hUne : natChars (M / 10 ^ k) ++ '.' :: F ≠ [] := by
      intro he
      exact absurd (List.append_eq_nil.mp he).1 (natChars_ne_nil _)
    have hv : (digitsVal (natChars (M / 10 ^ k)) : Rat) +
        (digitsVal F : Rat) / (10 : Rat) ^ F.length = (M : Rat) / (10 : Rat) ^ k := by
      rw [digitsVal_natChars, hFval, hFlen]
      have hsplit2 : (M / 10 ^ k) * 10 ^ k + M % 10 ^ k = M := by
        rw [Nat.mul_comm]
        exact Nat.div_add_mod M (10 ^ k)
      have h10 : ((10 : Rat) ^ k) ≠ 0 := by positivity
      rw [eq_div_iff h10, add_mul, div_mul_cancel₀ _ h10]
      exact_mod_cast hsplit2
    have h1le : (1 : Rat) ≤ (10 : Rat) ^ k := by
      calc (1 : Rat) = 10 ^ 0 := by norm_num
        _ ≤ 10 ^ k := pow_le_pow_right₀ (by norm_num) (Nat.zero_le k)
    have hmain := stodParse_pos_neg (natChars (M / 10 ^ k) ++ '.' :: F)
      (natChars (M / 10 ^ k)) F ('.' :: F) (natChars_ne_nil _) htd hsf
      (fun c hc => by
        have hd : c.isDigit = true := by
          have hm : c ∈ natChars (M / 10 ^ k) := by
            cases he : natChars (M / 10 ^ k) with
            | nil => exact absurd he (natChars_ne_nil _)
            | cons x xs =>
              rw [he, List.cons_append] at hc
              injection hc with hcx
              rw [hcx]
              exact List.mem_cons_self _ _
          exact isDigit_natChars _ c hm
        exact ⟨isDigit_ne_minus hd, isDigit_ne_plus hd⟩)
      hUne
      (by
        rw [hv]
        exact lt_of_le_of_lt (div_le_self (by positivity) h1le) hM)
    rw [hv] at hmain
    exact hmain

/-- Parsing a rendered numeral recovers exactly the rational value and
consumes the whole numeral: the std::stod model is a left inverse of
the ostream-formatting model. -/
theorem stodParse_renderNum {q : Rat} {s : List Char}
    (h : renderNum q = some s) : stodParse s = some (q, []) := by
  rw [renderNum] at h
  cases hdom : renderDomain q with
  | none =>
    rw [hdom] at h
    cases h
  | some k =>
    rw [hdom] at h
    injection h with hs
    obtain ⟨hde, hguard1, hguard2⟩ := renderDomain_some hdom
    have hM : ((q.num.natAbs * (10 ^ k / q.den) : Nat) : Rat) <
        stodOverflowBound := by
      have h1 : q.num.natAbs * (10 ^ k / q.den) <
          10 ^ (natChars (q.num.natAbs * (10 ^ k / q.den))).length :=
        natChars_lt_pow _
      have h2 : (10 : Nat) ^ (natChars (q.num.natAbs * (10 ^ k / q.den))).length ≤
          10 ^ 6 :=
        Nat.pow_le_pow_right (by norm_num) hguard1
      have h3 : q.num.natAbs * (10 ^ k / q.den) < 10 ^ 6 := lt_of_lt_of_le h1 h2
      calc ((q.num.natAbs * (10 ^ k / q.den) : Nat) : Rat)
          < ((10 ^ 6 : Nat) : Rat) := by exact_mod_cast h3
        _ < stodOverflowBound := by
          rw [stodOverflowBound_eq]
          exact_mod_cast
            (by norm_num : (10 ^ 6 : Nat) < (2 ^ 128) ^ 8 - (2 ^ 97) ^ 10)
    have hdvd : q.den ∣ 10 ^ k := decExponent_dvd hde
    have hden0 : (q.den : Nat) ≠ 0 := q.den_nz
    have hc10 : 10 ^ k / q.den * q.den = 10 ^ k := Nat.div_mul_cancel hdvd
    have hc0 : 10 ^ k / q.den ≠ 0 := by
      intro h0
      rw [h0, Nat.zero_mul] at hc10
      exact absurd hc10.symm (by positivity)
    have hMval : ((q.num.natAbs * (10 ^ k / q.den) : Nat) : Rat) / (10 : Rat) ^ k =
        (q.num.natAbs : Rat) / (q.den : Rat) := by
      have hcast : ((10 : Rat) ^ k) =
          ((q.den : Nat) : Rat) * ((10 ^ k / q.den : Nat) : Rat) := by
        rw [← Nat.cast_mul, Nat.mul_comm, hc10]
        push_cast
        ring
      have hcq : ((10 ^ k / q.den : Nat) : Rat) ≠ 0 := Nat.cast_ne_zero.mpr hc0
      have hdq : ((q.den : Nat) : Rat) ≠ 0 := Nat.cast_ne_zero.mpr hden0
      rw [hcast, Nat.cast_mul]
      field_simp
      ring
    have hDparse : stodParse (if k = 0 then natChars (q.num.natAbs * (10 ^ k / q.den))
          else natChars ((q.num.natAbs * (10 ^ k / q.den)) / 10 ^ k) ++
            '.' :: (List.replicate (k - (natChars ((q.num.natAbs * (10 ^ k / q.den)) % 10 ^ k)).length) '0' ++
              natChars ((q.num.natAbs * (10 ^ k / q.den)) % 10 ^ k))) =
        some ((q.num.natAbs : Rat) / (q.den : Rat), []) ∧
        stodParse ('-' :: (if k = 0 then natChars (q.num.natAbs * (10 ^ k / q.den))
          else natChars ((q.num.natAbs * (10 ^ k / q.den)) / 10 ^ k) ++
            '.' :: (List.replicate (k - (natChars ((q.num.natAbs * (10 ^ k / q.den)) % 10 ^ k)).length) '0' ++
              natChars ((q.num.natAbs * (10 ^ k / q.den)) % 10 ^ k)))) =
        some (-((q.num.natAbs : Rat) / (q.den : Rat)), []) := by
      rw [← hMval]
      by_cases hk0 : k = 0
      · subst hk0
        simp only [reduceIte]
        have hpair := (stodParse_rendered (q.num.natAbs * (10 ^ 0 / q.den)) 0 hM).1
          rfl
        rw [hpair.1, hpair.2]
        norm_num
      · simp only [if_neg hk0]
        have hpair := (stodParse_rendered (q.num.natAbs * (10 ^ k / q.den)) k hM).2
          (Nat.one_le_iff_ne_zero.mpr hk0)
        rw [hpair.1, hpair.2]
        exact ⟨rfl, rfl⟩
    by_cases hneg : q.num < 0
    · rw [if_pos hneg] at hs
      subst hs
      rw [hDparse.2]
      have habs : ((q.num.natAbs : Int) : Rat) = -(q.num : Rat) := by
        exact_mod_cast congrArg (Int.cast : Int → Rat)
          (Int.ofNat_natAbs_of_nonpos (le_of_lt hneg))
      have : -((q.num.natAbs : Rat) / (q.den : Rat)) = q := by
        rw [show ((q.num.natAbs : Nat) : Rat) = ((q.num.natAbs : Int) : Rat) from
          (Int.cast_natCast _).symm, habs, neg_div, neg_neg, Rat.num_div_den]
      rw [this]
    · rw [if_neg hneg] at hs
      subst hs
      rw [hDparse.1]
      have habs : ((q.num.natAbs : Int) : Rat) = (q.num : Rat) := by
        exact_mod_cast congrArg (Int.cast : Int → Rat)
          (Int.natAbs_of_nonneg (not_lt.mp hneg))
      have : ((q.num.natAbs : Rat) / (q.den : Rat)) = q := by
        rw [show ((q.num.natAbs : Nat) : Rat) = ((q.num.natAbs : Int) : Rat) from
          (Int.cast_natCast _).symm, habs, Rat.num_div_den]
      rw [this]

/-- A rendered numeral is nonempty and consists only of characters of
the class `"0123456789.-"`. -/
theorem renderNum_shape {q : Rat} {s : List Char} (h : renderNum q = some s) :
    s ≠ [] ∧ ∀ c ∈ s, isNumChar c = true := by
  rw [renderNum] at h
  cases hdom : renderDomain q with
  | none =>
    rw [hdom] at h
    cases h
  | some k =>
    rw [hdom] at h
    injection h with hs
    obtain ⟨hde, hguard1, hguard2⟩ := renderDomain_some hdom
    have hbody : (if k = 0 then natChars (q.num.natAbs * (10 ^ k / q.den))
          else natChars ((q.num.natAbs * (10 ^ k / q.den)) / 10 ^ k) ++
            '.' :: (List.replicate (k - (natChars ((q.num.natAbs * (10 ^ k / q.den)) % 10 ^ k)).length) '0' ++
              natChars ((q.num.natAbs * (10 ^ k / q.den)) % 10 ^ k))) ≠ [] ∧
        ∀ c ∈ (if k = 0 then natChars (q.num.natAbs * (10 ^ k / q.den))
          else natChars ((q.num.natAbs * (10 ^ k / q.den)) / 10 ^ k) ++
            '.' :: (List.replicate (k - (natChars ((q.num.natAbs * (10 ^ k / q.den)) % 10 ^ k)).length) '0' ++
              natChars ((q.num.natAbs * (10 ^ k / q.den)) % 10 ^ k))),
          isNumChar c = true := by
      by_cases hk0 : k = 0
      · simp only [if_pos hk0]
        refine ⟨natChars_ne_nil _, fun c hc => isDigit_isNumChar (isDigit_natChars _ c hc)⟩
      · simp only [if_neg hk0]
        constructor
        · intro he
          exact absurd (List.append_eq_nil.mp he).1 (natChars_ne_nil _)
        · intro c hc
          rw [List.mem_append] at hc
          rcases hc with hc | hc
          · exact isDigit_isNumChar (isDigit_natChars _ c hc)
          · rw [List.mem_cons] at hc
            rcases hc with rfl | hc
            · decide
            · rw [List.mem_append] at hc
              rcases hc with hc | hc
              · rw [List.eq_of_mem_replicate hc]
                decide
              · exact isDigit_isNumChar (isDigit_natChars _ c hc)
    by_cases hneg : q.num < 0
    · rw [if_pos hneg] at hs
      subst hs
      refine ⟨by simp, fun c hc => ?_⟩
      rw [List.mem_cons] at hc
      rcases hc with rfl | hc
      · decide
      · exact hbody.2 c hc
    · rw [if_neg hneg] at hs
      subst hs
      exact hbody

/-! ### Tokenisation lemmas -/

theorem splitTokens_no_delim (t : List Char) (h : ∀ c ∈ t, c ≠ '_') :
    ∀ acc, splitTokens t acc = [acc.reverse ++ t] := by
  induction t with
  | nil =>
    intro acc
    simp [splitTokens]
  | cons c cs ih =>
    intro acc
    simp only [splitTokens, if_neg (h c (List.mem_cons_self _ _))]
    rw [ih (fun x hx => h x (List.mem_cons_of_mem _ hx)) (c :: acc)]
    simp

theorem splitTokens_delim (t rest : List Char) (h : ∀ c ∈ t, c ≠ '_') :
    ∀ acc, splitTokens (t ++ '_' :: rest) acc =
      (acc.reverse ++ t) :: splitTokens rest [] := by
  induction t with
  | nil =>
    intro acc
    simp [splitTokens]
  | cons c cs ih =>
    intro acc
    simp only [List.cons_append, splitTokens, List.append_eq,
      if_neg (h c (List.mem_cons_self _ _))]
    rw [ih (fun x hx => h x (List.mem_cons_of_mem _ hx)) (c :: acc)]
    simp

theorem endsWithUnderscore_cons (c : Char) (l : List Char) (h : l ≠ []) :
    endsWithUnderscore (c :: l) = endsWithUnderscore l := by
  cases l with
  | nil => exact absurd rfl h
  | cons d t => rfl

theorem endsWithUnderscore_append (xs ys : List Char) (h : ys ≠ []) :
    endsWithUnderscore (xs ++ ys) = endsWithUnderscore ys := by
  induction xs with
  | nil => rfl
  | cons c cs ih =>
    rw [List.cons_append, endsWithUnderscore_cons c (cs ++ ys) (by
      intro he
      exact h (List.append_eq_nil.mp he).2), ih]

theorem endsWithUnderscore_no_delim (t : List Char) (hne : t ≠ [])
    (h : ∀ c ∈ t, c ≠ '_') : endsWithUnderscore t = false := by
  induction t with
  | nil => exact absurd rfl hne
  | cons c cs ih =>
    cases cs with
    | nil =>
      show (c == '_') = false
      exact beq_eq_false_iff_ne.mpr (h c (List.mem_cons_self _ _))
    | cons d t =>
      rw [endsWithUnderscore_cons c (d :: t) (by simp)]
      exact ih (by simp) (fun x hx => h x (List.mem_cons_of_mem _ hx))

/-- The `getline` loop on four nonempty delimiter-free tokens joined by
`'_'` returns exactly those tokens. -/
theorem cppGetlineSplit_four (t1 t2 t3 t4 : List Char)
    (h1 : t1 ≠ []) (h4 : t4 ≠ [])
    (n1 : ∀ c ∈ t1, c ≠ '_') (n2 : ∀ c ∈ t2, c ≠ '_')
    (n3 : ∀ c ∈ t3, c ≠ '_') (n4 : ∀ c ∈ t4, c ≠ '_') :
    cppGetlineSplit (t1 ++ '_' :: (t2 ++ '_' :: (t3 ++ '_' :: t4))) =
      [t1, t2, t3, t4] := by
  have hassoc : t1 ++ '_' :: (t2 ++ '_' :: (t3 ++ '_' :: t4)) =
      (t1 ++ '_' :: (t2 ++ '_' :: (t3 ++ ['_']))) ++ t4 := by
    simp
  have hempty : (t1 ++ '_' :: (t2 ++ '_' :: (t3 ++ '_' :: t4))).isEmpty = false := by
    cases t1 <;> rfl
  have hends : endsWithUnderscore (t1 ++ '_' :: (t2 ++ '_' :: (t3 ++ '_' :: t4))) =
      false := by
    rw [hassoc, endsWithUnderscore_append _ _ h4]
    exact endsWithUnderscore_no_delim t4 h4 n4
  rw [cppGetlineSplit, hempty, hends]
  simp only [Bool.false_eq_true, if_false]
  rw [splitTokens_delim t1 _ n1 [], splitTokens_delim t2 _ n2 [],
    splitTokens_delim t3 _ n3 [], splitTokens_no_delim t4 n4 []]
  simp

/-! ### Item-decoding lemmas -/

theorem findFirstNumIdx_append (id s : List Char)
    (hid : ∀ c ∈ id, isNumChar c = false)
    (hs : s ≠ []) (hsn : ∀ c ∈ s, isNumChar c = true) :
    findFirstNumIdx (id ++ s) = some id.length := by
  induction id with
  | nil =>
    obtain ⟨c, t, rfl⟩ := List.exists_cons_of_ne_nil hs
    simp [findFirstNumIdx, hsn c (List.mem_cons_self _ _)]
  | cons d dt ih =>
    rw [List.cons_append, findFirstNumIdx,
      ih (fun x hx => hid x (List.mem_cons_of_mem _ hx))]
    simp [hid d (List.mem_cons_self _ _)]

/-- Decoding one packed item `id ++ rendered-value` recovers the pair. -/
theorem decodeItem_render (id : List Char) (q : Rat) (s : List Char)
    (hid : ∀ c ∈ id, isNumChar c = false)
    (hr : renderNum q = some s) :
    decodeItem (id ++ s) = some (id, q) := by
  obtain ⟨hne, hnum⟩ := renderNum_shape hr
  rw [decodeItem, findFirstNumIdx_append id s hid hne hnum]
  simp only [List.drop_left, List.take_left, stodParse_renderNum hr]

theorem mapM_decode_four {t1 t2 t3 t4 : List Char}
    {p1 p2 p3 p4 : List Char × Rat}
    (h1 : decodeItem t1 = some p1) (h2 : decodeItem t2 = some p2)
    (h3 : decodeItem t3 = some p3) (h4 : decodeItem t4 = some p4) :
    List.mapM decodeItem [t1, t2, t3, t4] = some [p1, p2, p3, p4] := by
  simp [List.mapM, List.mapM.loop, h1, h2, h3, h4]

/-- Claim C5 is refuted as stated: the identifier `"A_B"` contains no
character of `{0-9, ., -}`, yet decoding the packed string
`"A_B1_C2_D3_E4"` does not yield the original lists — the first
`getline` token `"A"` has no numeric character, so `substr(npos)` /
`stod` throw (the decode is the error value, not the identity). -/
theorem C5_underscore_id_breaks_roundtrip :
    (∀ c ∈ "A_B".toList ++ "C".toList ++ "D".toList ++ "E".toList,
      isNumChar c = false) ∧
    packData "A_B".toList 1 "C".toList 2 "D".toList 3 "E".toList 4 =
      some "A_B1_C2_D3_E4".toList ∧
    extractValuesAndIds "A_B1_C2_D3_E4".toList = none ∧
    extractValuesAndIds "A_B1_C2_D3_E4".toList ≠
      some (["A_B".toList, "C".toList, "D".toList, "E".toList],
        [1, 2, 3, 4]) := by
  with_unfolding_all decide

/-- Claim C5 (amended): command decode is the left inverse of command
encode for well-formed input once the identifiers also avoid the field
delimiter: for identifiers with no character in `{0-9, ., -}` and no
`'_'`, and values on which the default `operator<<` float formatting
(`%g` at precision 6) is exact — exactly when `packData` succeeds in
the embedding — decoding the packed string yields back the same
ordered identifier list and the same ordered value list. -/
theorem C5_decode_inverts_encode (id1 id2 id3 id4 : List Char)
    (v1 v2 v3 v4 : Rat) (s : List Char)
    (hid : ∀ c ∈ id1 ++ id2 ++ id3 ++ id4, isNumChar c = false ∧ c ≠ '_')
    (hp : packData id1 v1 id2 v2 id3 v3 id4 v4 = some s) :
    extractValuesAndIds s = some ([id1, id2, id3, id4], [v1, v2, v3, v4]) := by
  rw [packData] at hp
  cases hr1 : renderNum v1 with
  | none => rw [hr1] at hp; cases hp
  | some s1 =>
  cases hr2 : renderNum v2 with
  | none => rw [hr1, hr2] at hp; cases hp
  | some s2 =>
  cases hr3 : renderNum v3 with
  | none => rw [hr1, hr2, hr3] at hp; cases hp
  | some s3 =>
  cases hr4 : renderNum v4 with
  | none => rw [hr1, hr2, hr3, hr4] at hp; cases hp
  | some s4 =>
  rw [hr1, hr2, hr3, hr4] at hp
  injection hp with hs
  subst hs
  obtain ⟨hs1ne, hs1num⟩ := renderNum_shape hr1
  obtain ⟨hs2ne, hs2num⟩ := renderNum_shape hr2
  obtain ⟨hs3ne, hs3num⟩ := renderNum_shape hr3
  obtain ⟨hs4ne, hs4num⟩ := renderNum_shape hr4
  have hid1 : ∀ c ∈ id1, isNumChar c = false := fun c hc => (hid c (by simp [hc])).1
  have hid2 : ∀ c ∈ id2, isNumChar c = false := fun c hc => (hid c (by simp [hc])).1
  have hid3 : ∀ c ∈ id3, isNumChar c = false := fun c hc => (hid c (by simp [hc])).1
  have hid4 : ∀ c ∈ id4, isNumChar c = false := fun c hc => (hid c (by simp [hc])).1
  have hu1 : ∀ c ∈ id1, c ≠ '_' := fun c hc => (hid c (by simp [hc])).2
  have hu2 : ∀ c ∈ id2, c ≠ '_' := fun c hc => (hid c (by simp [hc])).2
  have hu3 : ∀ c ∈ id3, c ≠ '_' := fun c hc => (hid c (by simp [hc])).2
  have hu4 : ∀ c ∈ id4, c ≠ '_' := fun c hc => (hid c (by simp [hc])).2
  have tok : ∀ (idx sx : List Char), (∀ c ∈ idx, c ≠ '_') →
      (∀ c ∈ sx, isNumChar c = true) → ∀ c ∈ idx ++ sx, c ≠ '_' := by
    intro idx sx hi hsx c hc
    rcases List.mem_append.mp hc with hc | hc
    · exact hi c hc
    · exact numChar_ne_underscore (hsx c hc)
  have tne : ∀ (idx sx : List Char), sx ≠ [] → idx ++ sx ≠ [] := by
    intro idx sx hsx he
    exact hsx (List.append_eq_nil.mp he).2
  rw [show id1 ++ s1 ++ '_' :: (id2 ++ s2 ++ '_' :: (id3 ++ s3 ++ '_' ::
      (id4 ++ s4))) =
      (id1 ++ s1) ++ '_' :: ((id2 ++ s2) ++ '_' :: ((id3 ++ s3) ++ '_' ::
        (id4 ++ s4))) by simp [List.append_assoc]]
  rw [extractValuesAndIds,
    cppGetlineSplit_four (id1 ++ s1) (id2 ++ s2) (id3 ++ s3) (id4 ++ s4)
      (tne _ _ hs1ne) (tne _ _ hs4ne)
      (tok _ _ hu1 hs1num) (tok _ _ hu2 hs2num) (tok _ _ hu3 hs3num)
      (tok _ _ hu4 hs4num),
    mapM_decode_four (decodeItem_render id1 v1 s1 hid1 hr1)
      (decodeItem_render id2 v2 s2 hid2 hr2)
      (decodeItem_render id3 v3 s3 hid3 hr3)
      (decodeItem_render id4 v4 s4 hid4 hr4)]
  simp

/-- Witness for C5 (amended): the spec's own example — decoding
`"LAT56_LONG78.5_SAT72.34_ALT48.2"` (which is the packed form of those
four pairs) yields ids `["LAT","LONG","SAT","ALT"]` and values
`[56, 78.5, 72.34, 48.2]`. -/
theorem C5_decode_inverts_encode_witness :
    extractValuesAndIds "LAT56_LONG78.5_SAT72.34_ALT48.2".toList =
      some (["LAT".toList, "LONG".toList, "SAT".toList, "ALT".toList],
        [56, 78.5, 72.34, 48.2]) :=
  C5_decode_inverts_encode "LAT".toList "LONG".toList "SAT".toList "ALT".toList
    56 78.5 72.34 48.2 "LAT56_LONG78.5_SAT72.34_ALT48.2".toList
    (by with_unfolding_all decide) (by with_unfolding_all decide)

end MarsFirmware

